import Mathlib

/-!
Verification of burlap's runtime value model (src/value.rs) and bytecode
compiler (src/backend/vm/compiler.rs), as a shallow embedding in Lean.

Modelling conventions:
* Rust `i32` is embedded as ℤ; two's-complement wrap-around of release-mode
  arithmetic is made explicit through `wrap32`.  Integer division/remainder
  overflow and remainder by zero, which panic in Rust in every profile, are
  modelled by an `Option` result (`none` = panic).
* Rust `f32` is idealised as ℚ (exact rational arithmetic).  IEEE rounding,
  infinities and NaN are outside this model; divisions by zero that produce
  an infinity in Rust produce the Mathlib convention `q / 0 = 0` here, and
  theorems that depend on the value of a quotient carry a nonzero-divisor
  hypothesis to stay inside the faithful fragment.
* Rust `String` is embedded as Lean `String`.  Every string operation the
  sources perform (first-byte digit test, appending ASCII suffixes,
  truncating an ASCII ", " suffix) acts identically on bytes and on
  characters, so the character-level view is faithful.
* `IndexMap<String, Value>` is embedded as an insertion-ordered association
  list `List (String × Value)`; `get` is first-match lookup and `get_index`
  is positional lookup, exactly the operations value.rs uses.
* A Rust function that can panic is embedded with an `Option` result, where
  `none` marks the panic.
-/

namespace Burlap

/-- Two's-complement wrap of an integer into the `i32` range, the
release-profile behaviour of Rust `i32` addition/subtraction/multiplication. -/
def wrap32 (z : ℤ) : ℤ := (z + 2 ^ 31) % 2 ^ 32 - 2 ^ 31

/-- Truncation of a rational toward zero, the rounding used by Rust's
float-to-int `as` casts and by `%` on floats. -/
def ratTrunc (q : ℚ) : ℤ := if 0 ≤ q then ⌊q⌋ else ⌈q⌉

/-- Rust `f as i32`: truncate toward zero and saturate to the `i32` range
(idealised on ℚ; NaN, which maps to 0 in Rust, has no ℚ counterpart). -/
def f32AsI32 (q : ℚ) : ℤ := max (-(2 ^ 31)) (min (2 ^ 31 - 1) (ratTrunc q))

/-- Rust `i as usize` on an `i32` value: sign-extend and reinterpret as a
64-bit unsigned integer. -/
def i32AsUsize (z : ℤ) : ℕ := (z % 2 ^ 64).toNat

/-- Value of a list of decimal digit characters, most significant first. -/
def digitsToNat (l : List Char) : ℕ :=
  l.foldl (fun a c => a * 10 + (c.toNat - 48)) 0

/-- Modelled from Rust's standard library: `str::parse::<i32>` — an optional
sign followed by one or more ASCII digits, rejected when the value overflows
the `i32` range. -/
def parseI32 (s : String) : Option ℤ :=
  let p : Bool × List Char :=
    match s.data with
    | '+' :: r => (false, r)
    | '-' :: r => (true, r)
    | r => (false, r)
  if p.2 = [] ∨ ¬ p.2.all Char.isDigit then none
  else
    let v : ℤ := if p.1 then -(digitsToNat p.2 : ℤ) else (digitsToNat p.2 : ℤ)
    if -(2 ^ 31) ≤ v ∧ v ≤ 2 ^ 31 - 1 then some v else none

/-- Exponent suffix of Rust's float grammar: either nothing, or
`('e'|'E') ['+'|'-'] digit+`. -/
def parseExpPart : List Char → Option ℤ
  | [] => some 0
  | c :: r =>
    if c = 'e' ∨ c = 'E' then
      let p : ℤ × List Char :=
        match r with
        | '+' :: t => (1, t)
        | '-' :: t => (-1, t)
        | t => (1, t)
      if p.2 ≠ [] ∧ p.2.all Char.isDigit then some (p.1 * (digitsToNat p.2 : ℤ))
      else none
    else none

/-- Power of ten as a rational (kept as a ℕ power so it evaluates). -/
def pow10 (n : ℕ) : ℚ := ((10 ^ n : ℕ) : ℚ)

/-- Scale a rational by an integer power of ten. -/
def scale10 (q : ℚ) (e : ℤ) : ℚ := if 0 ≤ e then q * pow10 e.toNat else q / pow10 (-e).toNat

/-- Modelled from Rust's standard library: the finite part of
`str::parse::<f32>` — an optional sign, a mantissa `digit+ | digit+ '.'
digit* | digit* '.' digit+`, and an optional exponent; the value is kept
exact in ℚ.  The special spellings (`inf`, `NaN`, …) denote non-finite
floats and are outside the rational idealisation. -/
def parseF32 (s : String) : Option ℚ :=
  let p : ℚ × List Char :=
    match s.data with
    | '+' :: r => (1, r)
    | '-' :: r => (-1, r)
    | r => (1, r)
  let ip := p.2.takeWhile Char.isDigit
  let rest := p.2.dropWhile Char.isDigit
  match rest with
  | '.' :: r =>
    let fp := r.takeWhile Char.isDigit
    let rest2 := r.dropWhile Char.isDigit
    if ip = [] ∧ fp = [] then none
    else
      (parseExpPart rest2).map (fun e =>
        scale10 (p.1 * ((digitsToNat ip : ℚ) + (digitsToNat fp : ℚ) / pow10 fp.length)) e)
  | rest1 =>
    if ip = [] then none
    else (parseExpPart rest1).map (fun e => scale10 (p.1 * (digitsToNat ip : ℚ)) e)

/-- The `Value` enum of src/value.rs: tagged runtime datum.  `Str` carries a
string, `Int` an `i32` (as ℤ), `Float` an `f32` (as ℚ), `List` an
insertion-ordered string-keyed map, `Iter` an owned snapshot plus cursor. -/
inductive Value where
  | str : String → Value
  | int : ℤ → Value
  | float : ℚ → Value
  | bool : Bool → Value
  | list : List (String × Value) → Value
  | none : Value
  | iter : List Value → ℤ → Value

/-- Tag of a value, used to state cross-type properties. -/
inductive Tag where
  | str | int | float | bool | list | none | iter
  deriving DecidableEq

/-- The tag of each `Value` constructor. -/
def Value.tag : Value → Tag
  | .str _ => .str
  | .int _ => .int
  | .float _ => .float
  | .bool _ => .bool
  | .list _ => .list
  | .none => .none
  | .iter _ _ => .iter

/-- Value.to_int (value.rs lines 58-66): total conversion to `i32`;
unparsable strings give 0, floats truncate-saturate, booleans give 0/1,
lists/none/iterators give 0. -/
def Value.to_int : Value → ℤ
  | .str s => (parseI32 s).getD 0
  | .int i => i
  | .float f => f32AsI32 f
  | .bool b => if b then 1 else 0
  | _ => 0

/-- Value.to_float (value.rs lines 68-76): total conversion to `f32`;
unparsable strings give 0.0. -/
def Value.to_float : Value → ℚ
  | .str s => (parseF32 s).getD 0
  | .int i => (i : ℚ)
  | .float f => f
  | .bool b => if b then 1 else 0
  | _ => 0

mutual

/-- Value.to_string (value.rs lines 78-106).  The `List` arm reads
`val.0.as_bytes()[0]` for every entry, which panics (here: `none`) when a
key is the empty string.  Numeric rendering of floats is idealised through
ℚ's `toString`; no claim depends on the rendered digits. -/
def Value.to_string : Value → Option String
  | .str s => some s
  | .int i => some (toString i)
  | .float f => some (toString f)
  | .bool b => some (toString b)
  | .list l => do
    let body ← listEntriesToString l
    let ret := ("[") ++ body
    let ret := if ret.length ≠ 1 then ret.dropRight 2 else ret
    pure (ret ++ ("]"))
  | .none => some ("none")
  | .iter _ _ => some ("__burlap_iter")

/-- The entry loop of `Value::to_string`'s `List` arm: for each entry, if
the key's first byte is not an ASCII digit the key and a colon are printed,
then the value's string and a trailing comma-space.  Reading the first byte
of an empty key panics (`none`). -/
def listEntriesToString : List (String × Value) → Option String
  | [] => some ("")
  | (k, v) :: rest => do
    let c ← k.data.head?
    let vs ← v.to_string
    let rs ← listEntriesToString rest
    pure ((if ¬ c.isDigit then k ++ (": ") else ("")) ++ vs ++ (", ") ++ rs)

end

/-- Value.eq (value.rs lines 177-231): equality used by the `==` operator.
Note the final catch-all: `List` and `Iter` values always compare `false`. -/
def Value.eq (self : Value) (right : Value) : Bool :=
  match self with
  | .str s =>
    match right with
    | .str t => s == t
    | _ => false
  | .none =>
    match right with
    | .none => true
    | _ => false
  | .bool b =>
    match right with
    | .bool c => b == c
    | _ => false
  | .float f =>
    match right with
    | .float g => f == g
    | .int i => f == (i : ℚ)
    | _ => false
  | .int i =>
    match right with
    | .float g => (i : ℚ) == g
    | .int j => i == j
    | _ => false
  | _ => false

/-- Value.index (value.rs lines 160-175): only a `List` can be indexed; a
string key is a map lookup, any other key is coerced with `to_int` and cast
to `usize` for a positional lookup.  Every non-`List` receiver returns
`none` immediately. -/
def Value.index (self : Value) (idx : Value) : Option Value :=
  match self with
  | .list l =>
    match idx with
    | .str s => l.lookup s
    | _ => (l.get? (i32AsUsize idx.to_int)).map Prod.snd
  | _ => Option.none

/-- Expansion of the `do_op!` macro (value.rs lines 19-53) at `+`:
float/float and float/int and int/int are supported, everything else yields
the error value. -/
def doOpAdd : Value → Value → Option (Except String Value)
  | .float f, r =>
    match r with
    | .float g => some (.ok (.float (f + g)))
    | .int i => some (.ok (.float (f + (i : ℚ))))
    | _ => some (.error ("addition failed"))
  | .int i, r =>
    match r with
    | .float g => some (.ok (.float ((i : ℚ) + g)))
    | .int j => some (.ok (.int (wrap32 (i + j))))
    | _ => some (.error ("addition failed"))
  | _, _ => some (.error ("addition failed"))

/-- Expansion of `do_op!` at `-`; the error value here is `Ok(Value::None)`
(value.rs line 272). -/
def doOpSub : Value → Value → Option (Except String Value)
  | .float f, r =>
    match r with
    | .float g => some (.ok (.float (f - g)))
    | .int i => some (.ok (.float (f - (i : ℚ))))
    | _ => some (.ok .none)
  | .int i, r =>
    match r with
    | .float g => some (.ok (.float ((i : ℚ) - g)))
    | .int j => some (.ok (.int (wrap32 (i - j))))
    | _ => some (.ok .none)
  | _, _ => some (.ok .none)

/-- Expansion of `do_op!` at `*`. -/
def doOpMul : Value → Value → Option (Except String Value)
  | .float f, r =>
    match r with
    | .float g => some (.ok (.float (f * g)))
    | .int i => some (.ok (.float (f * (i : ℚ))))
    | _ => some (.error ("multiplication failed"))
  | .int i, r =>
    match r with
    | .float g => some (.ok (.float ((i : ℚ) * g)))
    | .int j => some (.ok (.int (wrap32 (i * j))))
    | _ => some (.error ("multiplication failed"))
  | _, _ => some (.error ("multiplication failed"))

/-- Expansion of `do_op!` at `/`.  The int/int arm performs Rust `i32`
division (panics on division by zero or `i32::MIN / -1`); it is unreachable
from `Value.div`, which re-routes integer left operands through floats. -/
def doOpDiv : Value → Value → Option (Except String Value)
  | .float f, r =>
    match r with
    | .float g => some (.ok (.float (f / g)))
    | .int i => some (.ok (.float (f / (i : ℚ))))
    | _ => some (.error ("division failed"))
  | .int i, r =>
    match r with
    | .float g => some (.ok (.float ((i : ℚ) / g)))
    | .int j =>
      if j = 0 ∨ (i = -(2 ^ 31) ∧ j = -1) then none
      else some (.ok (.int (Int.tdiv i j)))
    | _ => some (.error ("division failed"))
  | _, _ => some (.error ("division failed"))

/-- Remainder on rationals with the sign convention of Rust's float `%`
(`x - y * trunc(x / y)`). -/
def qRem (x y : ℚ) : ℚ := x - y * ((ratTrunc (x / y) : ℤ) : ℚ)

/-- Expansion of `do_op!` at `%`.  The int/int arm is Rust `i32` remainder
(sign of the dividend; panics on a zero divisor or `i32::MIN % -1`). -/
def doOpMod : Value → Value → Option (Except String Value)
  | .float f, r =>
    match r with
    | .float g => some (.ok (.float (qRem f g)))
    | .int i => some (.ok (.float (qRem f (i : ℚ))))
    | _ => some (.error ("modulo failed"))
  | .int i, r =>
    match r with
    | .float g => some (.ok (.float (qRem (i : ℚ) g)))
    | .int j =>
      if j = 0 ∨ (i = -(2 ^ 31) ∧ j = -1) then none
      else some (.ok (.int (Int.tmod i j)))
    | _ => some (.error ("modulo failed"))
  | _, _ => some (.error ("modulo failed"))

/-- Rust `str::repeat`. -/
def strRepeat (s : String) (n : ℕ) : String := String.join (List.replicate n s)

/-- The `Mul` impl (value.rs lines 277-303).  The boolean fallback
`Value::Int(b as i32) * right` is a self-call whose left operand is an
integer; an integer left operand always lands in the `do_op!` catch-all arm,
so the call is written as `doOpMul` directly (same result, no recursion). -/
def Value.mul : Value → Value → Option (Except String Value)
  | .str s, r =>
    match r with
    | .int i => some (.ok (.str (if 0 < i then strRepeat s i.toNat else (""))))
    | _ => some (.error ("can only multiply string with number"))
  | .bool b, r =>
    match r with
    | .bool c => some (.ok (.bool (b || c)))
    | _ => doOpMul (.int (if b then 1 else 0)) r
  | .none, _ => some (.ok .none)
  | l, r => doOpMul l r

/-- The `Add` impl (value.rs lines 235-253).  A string left operand
concatenates with the right operand's `to_string` (so it panics whenever
that panics).  The boolean fallback at line 247 is written in the source as
`Value::Int(b as i32) * right` — it multiplies rather than adds. -/
def Value.add : Value → Value → Option (Except String Value)
  | .str s, r => (r.to_string).map (fun t => .ok (.str (s ++ t)))
  | .bool b, r =>
    match r with
    | .bool c => some (.ok (.bool (b || c)))
    | _ => Value.mul (.int (if b then 1 else 0)) r
  | .none, _ => some (.ok .none)
  | l, r => doOpAdd l r

/-- The `Sub` impl (value.rs lines 256-274).  The boolean fallback
`Value::Int(b as i32) - right` is a self-call with an integer left operand,
which always lands in the `do_op!` arm, written here as `doOpSub`. -/
def Value.sub : Value → Value → Option (Except String Value)
  | .str _, _ => some (.error ("cannot subtract from string"))
  | .bool b, r =>
    match r with
    | .bool c => some (.ok (.bool (b != c)))
    | _ => doOpSub (.int (if b then 1 else 0)) r
  | .none, _ => some (.ok .none)
  | l, r => doOpSub l r

/-- The `Div` impl (value.rs lines 306-323).  Boolean and integer left
operands are converted to floats and re-dispatched; a float left operand
always lands in the `do_op!` arm, written here as `doOpDiv`. -/
def Value.div : Value → Value → Option (Except String Value)
  | .str _, _ => some (.error ("cannot divide string"))
  | .bool b, r => doOpDiv (.float (if b then 1 else 0)) r
  | .int i, r => doOpDiv (.float (i : ℚ)) r
  | .none, _ => some (.ok .none)
  | l, r => doOpDiv l r

/-- The `Rem` impl (value.rs lines 326-338).  The boolean fallback
`Value::Int(b as i32) % right` is a self-call with an integer left operand,
which always lands in the `do_op!` arm, written here as `doOpMod`. -/
def Value.mod : Value → Value → Option (Except String Value)
  | .str _, _ => some (.error ("cannot modulo string"))
  | .bool b, r => doOpMod (.int (if b then 1 else 0)) r
  | .none, _ => some (.ok .none)
  | l, r => doOpMod l r

/-- Numeric tags: the left operands the `do_op!` macro supports. -/
def numericTag : Value → Bool
  | .int _ => true
  | .float _ => true
  | _ => false

/-- Collection tags: the left operands that always fall into `do_op!`'s
catch-all (`List` and `Iter`). -/
def collTag : Value → Bool
  | .list _ => true
  | .iter _ _ => true
  | _ => false

/-!
Bytecode-compiler embedding (src/backend/vm/compiler.rs).

The compiler operates on the value type of src/backend/value.rs, which is
not part of the sources here; its `PartialEq` is derived (structural), so
the constant-pool element type is kept abstract as any type `C` with
decidable equality.  The opcode discriminants live in src/backend/vm/vm.rs,
also not part of the sources; the claims below depend only on which opcode
is emitted, never on its numeric value, so distinct codes are assigned.
`Program`'s side tables (line/file ranges) and import path, and the
compiler's AST pointer and current-function data, are not touched by any
claim and are omitted from the state.  A `usize` is ℕ and panics are
`Option` (`none` = panic), as in the value model.
-/

/-- Rust `Iterator::position`: index of the first element satisfying `p`. -/
def position {α : Type} (p : α → Bool) : List α → Option ℕ
  | [] => Option.none
  | x :: xs => if p x then some 0 else (position p xs).map (· + 1)

/-- Opcodes used by the embedded fragment of the compiler.  Modelled from
the spec: the discriminant values are private to the external VM module;
only distinctness matters here. -/
inductive Opcode where
  | NOP | PGB | CP | POP | LD | LDL | JMP | JMPB | JMPNT | CALL | VCALL | RCALL | RET
  deriving DecidableEq

/-- Distinct numeric code for each opcode (stand-in for the Rust enum
discriminant used in the `(op as u32) << 24` packing). -/
def Opcode.code : Opcode → ℕ
  | .NOP => 0
  | .PGB => 1
  | .CP => 2
  | .POP => 3
  | .LD => 4
  | .LDL => 5
  | .JMP => 6
  | .JMPB => 7
  | .JMPNT => 8
  | .CALL => 9
  | .VCALL => 10
  | .RCALL => 11
  | .RET => 12

/-- The `Program` struct (compiler.rs lines 14-27), restricted to the fields
the claims touch: instruction words, constant pool, and the function table
of (name, start offset, arity) triples. -/
structure Program (C : Type) where
  ops : List ℕ
  consts : List C
  functis : List (String × ℕ × ℤ)

/-- The `Compiler` struct (compiler.rs lines 65-96), restricted to the
fields the claims touch. -/
structure Compiler (C : Type) where
  program : Program C
  needs_args : Bool
  break_addrs : List ℕ
  loop_top : ℕ
  regs : List Bool
  on_stack_only : Bool

/-- Compiler::new (compiler.rs lines 99-107): empty program, all 17
register slots free, no loop context (loop_top = 0). -/
def Compiler.new (C : Type) : Compiler C :=
  { program := { ops := [], consts := [], functis := [] }
    needs_args := false
    break_addrs := []
    loop_top := 0
    regs := List.replicate 17 true
    on_stack_only := false }

/-- One 32-bit instruction word: opcode byte then operand bytes a, b, c,
most significant first (the callers' `as u8` casts are the `% 256`). -/
def instrWord (op : Opcode) (a b c : ℕ) : ℕ :=
  op.code * 2 ^ 24 + (a % 256) * 2 ^ 16 + (b % 256) * 2 ^ 8 + (c % 256)

/-- Compiler::add_op_args (compiler.rs lines 110-118). -/
def add_op_args {C : Type} (st : Compiler C) (op : Opcode) (a b c : ℕ) : Compiler C :=
  { st with program := { st.program with ops := st.program.ops ++ [instrWord op a b c] } }

/-- Compiler::add_op (compiler.rs lines 120-123). -/
def add_op {C : Type} (st : Compiler C) (op : Opcode) : Compiler C :=
  add_op_args st op 0 0 0

/-- Compiler::copy (compiler.rs lines 138-141). -/
def copy {C : Type} (st : Compiler C) (src dst : ℕ) : Compiler C :=
  add_op_args st .CP src dst 0

/-- Compiler::move_ (compiler.rs lines 125-136): panics when the
destination is above the stack slot 16. -/
def move_ {C : Type} (st : Compiler C) (src dst : ℕ) : Option (Compiler C) :=
  if dst > 16 then Option.none
  else if src = dst then some st
  else
    let st2 := copy st src dst
    some (if src = 16 then add_op st2 .POP else st2)

/-- Compiler::use_reg (compiler.rs lines 163-165). -/
def use_reg {C : Type} (st : Compiler C) (reg : ℕ) : Compiler C :=
  { st with regs := st.regs.set reg false }

/-- Compiler::alloc_reg (compiler.rs lines 149-161): stack slot 16 in
stack-only mode or when no slot is free, else the first free slot. -/
def alloc_reg {C : Type} (st : Compiler C) : ℕ × Compiler C :=
  if st.on_stack_only then (16, st)
  else
    match position (fun b => b) st.regs with
    | Option.none => (16, st)
    | some reg => (reg, use_reg st reg)

/-- The identical index-or-append prologue of Compiler::push_to_stack and
Compiler::push_to (compiler.rs lines 207-211 and 226-230): position of the
first pool entry equal to `val`, or append. -/
def constIndex {C : Type} [DecidableEq C] (consts : List C) (val : C) : ℕ × List C :=
  match position (fun i => i == val) consts with
  | some i => (i, consts)
  | Option.none => (consts.length, consts ++ [val])

/-- Compiler::push_to_stack (compiler.rs lines 205-222): dedup-insert, then
a three-byte LDL pushing the constant onto the evaluation stack; panics
above the 24-bit index space. -/
def push_to_stack {C : Type} [DecidableEq C] (st : Compiler C) (val : C) : Option (Compiler C) :=
  let index := (constIndex st.program.consts val).1
  let st1 := { st with program := { st.program with consts := (constIndex st.program.consts val).2 } }
  if index > 2 ^ 24 - 1 then Option.none
  else some (add_op_args st1 .LDL ((index >>> 16) % 256) ((index >>> 8) % 256) (index % 256))

/-- Compiler::push_to (compiler.rs lines 224-265): dedup-insert, then LDL
to the stack for indices above 16 bits, an LD into the requested register,
the pseudo-register `index + 17` with no instruction when no register is
requested and the index is below 98, or an LD into a fresh register. -/
def push_to {C : Type} [DecidableEq C] (st : Compiler C) (val : C) (reg : Option ℕ) :
    Option (ℕ × Compiler C) :=
  let index := (constIndex st.program.consts val).1
  let st1 := { st with program := { st.program with consts := (constIndex st.program.consts val).2 } }
  if index > 2 ^ 24 - 1 then Option.none
  else if index > 2 ^ 16 - 1 then
    let st2 := add_op_args st1 .LDL ((index >>> 16) % 256) ((index >>> 8) % 256) (index % 256)
    match reg with
    | some r => (move_ st2 16 r).map (fun s => (r, s))
    | Option.none => some (16, st2)
  else
    match reg with
    | some r => some (r, add_op_args st1 .LD ((index >>> 8) % 256) (index % 256) r)
    | Option.none =>
      if index < 98 then some (index + 17, st1)
      else
        let ra := alloc_reg st1
        some (ra.1, add_op_args ra.2 .LD ((index >>> 8) % 256) (index % 256) ra.1)

/-- Replace instruction word `k`. -/
def setOp {C : Type} (st : Compiler C) (k w : ℕ) : Compiler C :=
  { st with program := { st.program with ops := st.program.ops.set k w } }

/-- Compiler::fill_jmp (compiler.rs lines 271-289): backfill the jump at
`pos - 1` with offset `i` (recomputed as `len - pos + 1` when 0), adding a
condition-register byte or the offset's high byte; panics on underflow of
`pos - 1`, an out-of-range position, or an offset exceeding the operand
width.  Note `i & 255 << 16` in the source parses as `i & (255 << 16)`, so
the three additions deposit the offset's three bytes. -/
def fill_jmp {C : Type} (st : Compiler C) (pos : ℕ) (i0 : ℕ) (reg : Option ℕ) :
    Option (Compiler C) :=
  let i := if i0 = 0 then st.program.ops.length - pos + 1 else i0
  if pos = 0 then Option.none
  else
    match st.program.ops.get? (pos - 1) with
    | Option.none => Option.none
    | some w =>
      match reg with
      | some x =>
        if i > 2 ^ 16 - 1 then Option.none
        else some (setOp st (pos - 1)
          ((((w + (x % 256) * 2 ^ 16) % 2 ^ 32 + (i &&& (255 <<< 8))) % 2 ^ 32 + (i &&& 255)) % 2 ^ 32))
      | Option.none =>
        if i > 2 ^ 24 - 1 then Option.none
        else some (setOp st (pos - 1)
          ((((w + (i &&& (255 <<< 16))) % 2 ^ 32 + (i &&& (255 <<< 8))) % 2 ^ 32 + (i &&& 255)) % 2 ^ 32))

/-- The BreakStmt arm of compile_stmt (compiler.rs lines 981-985): emit a
JMP and record its address for the enclosing loop's patch pass.  No check
that a loop is active exists; the arm cannot fail. -/
def compileBreakStmt {C : Type} (st : Compiler C) : Compiler C :=
  let st1 := add_op st .JMP
  { st1 with break_addrs := st1.break_addrs ++ [st1.program.ops.length] }

/-- The ContinueStmt arm of compile_stmt (compiler.rs lines 986-989): emit
a JMPB and immediately fill it with an offset computed against `loop_top`
(0 when no loop is active).  No check that a loop is active exists. -/
def compileContinueStmt {C : Type} (st : Compiler C) : Option (Compiler C) :=
  let st1 := add_op st .JMPB
  fill_jmp st1 st1.program.ops.length (st1.program.ops.length - st1.loop_top - 1) Option.none

/-- The tail-call test of compile_stmt's ReturnStmt arm (compiler.rs lines
995-999): with `functi` the last entry of the function table — a
(name, start offset, arity) triple — the source computes
`name == functi.0 && args.len() == functi.1`, comparing the argument count
against the start offset (`functi.1`), not the arity (`functi.2`); panics
(`none`) when the function table is empty. -/
def returnTCODecision (functis : List (String × ℕ × ℤ)) (callName : String)
    (numArgs : ℕ) : Option Bool :=
  match functis.getLast? with
  | Option.none => Option.none
  | some functi => some (callName == functi.1 && numArgs == functi.2.1)

/-- The tail-jump backfill of the ReturnStmt arm (compiler.rs lines
1014-1019): after emitting RCALL, the jump is filled with
`ops.len() - functi.2 - 1`, an offset computed from the arity field
(`functi.2`) rather than the recorded start offset (`functi.1`). -/
def returnTCOJump {C : Type} (st : Compiler C) (functi : String × ℕ × ℤ) :
    Option (Compiler C) :=
  let st1 := add_op st .RCALL
  fill_jmp st1 st1.program.ops.length
    (st1.program.ops.length - functi.2.2.toNat - 1) Option.none

/-! Helper lemmas about `position` (shared by the constant-pool claims). -/

theorem position_eq_none_iff {α : Type} (p : α → Bool) (l : List α) :
    position p l = Option.none ↔ ∀ x ∈ l, p x = false := by
  induction l with
  | nil => simp [position]
  | cons a as ih =>
    by_cases hpa : p a = true
    · simp [position, hpa]
    · simp only [Bool.not_eq_true] at hpa
      simp [position, hpa, ih]

theorem position_eq_some_spec {α : Type} (p : α → Bool) :
    ∀ (l : List α) (i : ℕ), position p l = some i →
      (∃ x, l.get? i = some x ∧ p x = true) ∧
      ∀ j, j < i → ∀ x, l.get? j = some x → p x = false := by
  intro l
  induction l with
  | nil => intro i h; simp [position] at h
  | cons a as ih =>
    intro i h
    by_cases hpa : p a = true
    · simp [position, hpa] at h
      subst h
      exact ⟨⟨a, rfl, hpa⟩, fun j hj => absurd hj (Nat.not_lt_zero j)⟩
    · simp only [Bool.not_eq_true] at hpa
      simp [position, hpa] at h
      obtain ⟨i0, h0, rfl⟩ := h
      obtain ⟨⟨x, hx, hpx⟩, hmin⟩ := ih i0 h0
      refine ⟨⟨x, by simpa using hx, hpx⟩, ?_⟩
      intro j hj y hy
      cases j with
      | zero =>
        simp at hy
        subst hy
        exact hpa
      | succ j0 =>
        exact hmin j0 (by omega) y (by simpa using hy)

theorem position_append_last {α : Type} (p : α → Bool) (l : List α) (a : α)
    (hl : ∀ x ∈ l, p x = false) (ha : p a = true) :
    position p (l ++ [a]) = some l.length := by
  induction l with
  | nil => simp [position, ha]
  | cons b bs ih =>
    have hb : p b = false := hl b (by simp)
    simp [position, hb, ih (fun x hx => hl x (by simp [hx]))]

/-! The claims. -/

/-- Claim C1 (code_bug evaluation): a `return f(x)` site inside a function
`f` of declared arity 1 whose body starts at instruction offset 2 — the
layout produced for the first function of any program — is NOT tail-call
compiled, because the source's test `args.len() == functi.1` compares the
argument count against the recorded start offset instead of the arity
(`functi.2`); the claim requires the decision to be `true` whenever the
argument count equals the declared arity. -/
theorem C1_self_call_with_matching_arity_not_tail_compiled :
    returnTCODecision [(("f" : String), 2, 1)] ("f") 1 = some false := rfl

/-- Claim C2: dividing Int by Int always produces a Float carrying the
(rational-idealised) quotient — never an Int and never a truncated value.
The quotient equation is stated for a nonzero divisor, the fragment where
the ℚ idealisation of `f32` is exact. -/
theorem C2_int_division_always_float (a b : ℤ) :
    (∃ q : ℚ, Value.div (.int a) (.int b) = some (.ok (.float q))) ∧
    (b ≠ 0 → Value.div (.int a) (.int b) = some (.ok (.float ((a : ℚ) / (b : ℚ))))) :=
  ⟨⟨(a : ℚ) / (b : ℚ), rfl⟩, fun _ => rfl⟩

/-- Witness for C2 at 5 / 2. -/
theorem C2_witness :
    Value.div (.int 5) (.int 2) = some (.ok (.float (((5 : ℤ) : ℚ) / ((2 : ℤ) : ℚ)))) :=
  (C2_int_division_always_float 5 2).2 (by decide)

/-- Claim C3 counterexample: two structurally equal (here: identical) empty
lists compare unequal under `Value.eq`, refuting "two structurally equal
Lists are equal". -/
theorem C3_counterexample_lists_never_equal :
    Value.eq (.list []) (.list []) = false := rfl

/-- Claim C3 (amended): cross-type `eq` is false apart from the
Integer↔Float numeric comparison; String, Bool, Integer, Float compare by
natural equality and None equals only None; but `List` and `Iter` left
operands always compare `false`, even against a structurally equal value. -/
theorem C3_eq_characterization :
    (∀ s t : String, Value.eq (.str s) (.str t) = (s == t)) ∧
    (∀ b c : Bool, Value.eq (.bool b) (.bool c) = (b == c)) ∧
    (∀ i j : ℤ, Value.eq (.int i) (.int j) = (i == j)) ∧
    (∀ p q : ℚ, Value.eq (.float p) (.float q) = (p == q)) ∧
    (∀ (i : ℤ) (q : ℚ), Value.eq (.int i) (.float q) = ((i : ℚ) == q)) ∧
    (∀ (q : ℚ) (i : ℤ), Value.eq (.float q) (.int i) = (q == (i : ℚ))) ∧
    (Value.eq .none .none = true) ∧
    (∀ l r, Value.eq (.list l) r = false) ∧
    (∀ xs n r, Value.eq (.iter xs n) r = false) ∧
    (∀ l r : Value, l.tag ≠ r.tag →
      ¬(l.tag = .int ∧ r.tag = .float) → ¬(l.tag = .float ∧ r.tag = .int) →
      Value.eq l r = false) := by
  refine ⟨fun s t => rfl, fun b c => rfl, fun i j => rfl, fun p q => rfl,
    fun i q => rfl, fun q i => rfl, rfl, fun l r => rfl, fun xs n r => rfl, ?_⟩
  intro l r h1 h2 h3
  cases l <;> cases r <;> revert h1 h2 h3 <;> simp [Value.tag, Value.eq]

/-- Witness for C3's cross-type component at String vs Bool. -/
theorem C3_witness : Value.eq (.str ("a")) (.bool true) = false :=
  C3_eq_characterization.2.2.2.2.2.2.2.2.2 (.str ("a")) (.bool true)
    (by decide) (by decide) (by decide)

/-- Claim C4 (code_bug evaluation): the `Add` impl's boolean fallback is
written `Value::Int(b as i32) * right` — it multiplies instead of adding —
so `Bool(true) + Int(5)` is `Int(5)`, while the claimed promote-and-retry
semantics gives `Int(1) + Int(5) = Int(6)`; `Sub` retries correctly. -/
theorem C4_bool_add_retries_with_multiplication :
    Value.add (.bool true) (.int 5) = some (.ok (.int 5)) ∧
    Value.add (.int 1) (.int 5) = some (.ok (.int 6)) ∧
    Value.sub (.bool true) (.int 5) = some (.ok (.int (-4))) := by
  refine ⟨?_, ?_, ?_⟩
  · have h0 : Value.add (.bool true) (.int 5) = some (.ok (.int (wrap32 (1 * 5)))) := rfl
    have h1 : wrap32 (1 * 5) = 5 := by decide
    rw [h0, h1]
  · have h0 : Value.add (.int 1) (.int 5) = some (.ok (.int (wrap32 (1 + 5)))) := rfl
    have h1 : wrap32 (1 + 5) = 6 := by decide
    rw [h0, h1]
  · have h0 : Value.sub (.bool true) (.int 5) = some (.ok (.int (wrap32 (1 - 5)))) := rfl
    have h1 : wrap32 (1 - 5) = -4 := by decide
    rw [h0, h1]

/-- Claim C5: on every unsupported tag combination — a numeric left operand
with a non-numeric right operand, or a List/Iter left operand with anything
— `+`, `×`, `/` and `%` produce the error result while `-` produces
`Ok(None)`. -/
theorem C5_unsupported_combination_asymmetry (l r : Value)
    (h : (numericTag l = true ∧ numericTag r = false) ∨ collTag l = true) :
    (∃ e, Value.add l r = some (.error e)) ∧
    (∃ e, Value.mul l r = some (.error e)) ∧
    (∃ e, Value.div l r = some (.error e)) ∧
    (∃ e, Value.mod l r = some (.error e)) ∧
    Value.sub l r = some (.ok .none) := by
  cases l <;> cases r <;> simp [numericTag, collTag] at h <;>
    exact ⟨⟨_, rfl⟩, ⟨_, rfl⟩, ⟨_, rfl⟩, ⟨_, rfl⟩, rfl⟩

/-- Witness for C5 at Int + String. -/
theorem C5_witness :
    (∃ e, Value.add (.int 1) (.str ("x")) = some (.error e)) ∧
    (∃ e, Value.mul (.int 1) (.str ("x")) = some (.error e)) ∧
    (∃ e, Value.div (.int 1) (.str ("x")) = some (.error e)) ∧
    (∃ e, Value.mod (.int 1) (.str ("x")) = some (.error e)) ∧
    Value.sub (.int 1) (.str ("x")) = some (.ok .none) :=
  C5_unsupported_combination_asymmetry (.int 1) (.str ("x")) (Or.inl ⟨rfl, rfl⟩)

/-- Claim C6 (code_bug evaluation): `to_string` is not total — on a List
with an empty-string key the source reads `val.0.as_bytes()[0]` and panics
(modelled as `none`), contradicting "never fail or panic for any input
(including any List value, whatever its keys)". -/
theorem C6_to_string_panics_on_empty_key :
    Value.to_string (.list [(("" : String), .none)]) = Option.none := rfl

/-- Claim C7 counterexample: compiling `break` and `continue` at top level
(the fresh compiler state, no active loop) does not abort — `break` emits
an instruction and `continue` succeeds as well. -/
theorem C7_counterexample_break_continue_outside_loop :
    (compileBreakStmt (Compiler.new ℕ)).program.ops.length = 1 ∧
    (compileContinueStmt (Compiler.new ℕ)).isSome = true := ⟨rfl, rfl⟩

/-- Claim C7 (amended): `break`/`continue` outside a loop are not rejected:
the BreakStmt arm always succeeds, emitting an unconditional JMP and
recording its address (which no patch pass ever fills at top level), and
the ContinueStmt arm emits a JMPB filled against the current `loop_top`
(0 outside any loop) and succeeds whenever that offset fits in 24 bits. -/
theorem fill_jmp_none_isSome {C : Type} (st : Compiler C) (pos i0 w : ℕ)
    (hpos : ¬ (pos = 0)) (hget : st.program.ops.get? (pos - 1) = some w)
    (hsz : (if i0 = 0 then st.program.ops.length - pos + 1 else i0) ≤ 2 ^ 24 - 1) :
    ∃ w2, fill_jmp st pos i0 Option.none = some (setOp st (pos - 1) w2) := by
  have h24 : ¬ ((if i0 = 0 then st.program.ops.length - pos + 1 else i0) > 2 ^ 24 - 1) := by
    omega
  simp only [fill_jmp, hget, if_neg hpos, if_neg h24]
  exact ⟨_, rfl⟩

/-- Claim C7 (amended): `break`/`continue` outside a loop are not rejected:
the BreakStmt arm always succeeds, emitting an unconditional JMP and
recording its address (which no patch pass ever fills at top level), and
the ContinueStmt arm emits a JMPB filled against the current `loop_top`
(0 outside any loop) and succeeds whenever that offset fits in 24 bits. -/
theorem C7_break_continue_never_error {C : Type} (st : Compiler C) :
    ((compileBreakStmt st).program.ops = st.program.ops ++ [instrWord .JMP 0 0 0] ∧
     (compileBreakStmt st).break_addrs = st.break_addrs ++ [st.program.ops.length + 1]) ∧
    (st.loop_top ≤ st.program.ops.length →
      st.program.ops.length - st.loop_top ≤ 2 ^ 24 - 1 →
      ∃ st2, compileContinueStmt st = some st2 ∧
        st2.program.ops.length = st.program.ops.length + 1) := by
  constructor
  · constructor
    · simp [compileBreakStmt, add_op, add_op_args]
    · simp [compileBreakStmt, add_op, add_op_args]
  · intro hle h24
    have hlen1 : (add_op st .JMPB).program.ops.length = st.program.ops.length + 1 := by
      simp [add_op, add_op_args]
    have htop : (add_op st .JMPB).loop_top = st.loop_top := rfl
    have hget : (add_op st .JMPB).program.ops.get?
        ((add_op st .JMPB).program.ops.length - 1) = some (instrWord .JMPB 0 0 0) := by
      show (st.program.ops ++ [instrWord .JMPB 0 0 0]).get?
        ((st.program.ops ++ [instrWord .JMPB 0 0 0]).length - 1) = _
      rw [List.length_append]
      simp [List.get?_concat_length]
    have hsz : (if ((add_op st .JMPB).program.ops.length - (add_op st .JMPB).loop_top - 1) = 0
        then (add_op st .JMPB).program.ops.length - (add_op st .JMPB).program.ops.length + 1
        else (add_op st .JMPB).program.ops.length - (add_op st .JMPB).loop_top - 1)
        ≤ 2 ^ 24 - 1 := by
      rw [hlen1, htop]
      by_cases h0 : st.program.ops.length + 1 - st.loop_top - 1 = 0
      · rw [if_pos h0]
        omega
      · rw [if_neg h0]
        omega
    obtain ⟨w2, hw⟩ := fill_jmp_none_isSome (add_op st .JMPB)
      ((add_op st .JMPB).program.ops.length)
      ((add_op st .JMPB).program.ops.length - (add_op st .JMPB).loop_top - 1)
      (instrWord .JMPB 0 0 0) (by rw [hlen1]; omega) hget hsz
    refine ⟨_, hw, ?_⟩
    simp [setOp, hlen1]

/-- Witness for C7's continue component at the fresh compiler state. -/
theorem C7_witness :
    ∃ st2, compileContinueStmt (Compiler.new ℕ) = some st2 ∧
      st2.program.ops.length = (Compiler.new ℕ).program.ops.length + 1 :=
  (C7_break_continue_never_error (Compiler.new ℕ)).2 (by decide) (by decide)

/-- Claim C8: constant-pool insertion deduplicates by value equality —
re-inserting is idempotent on the pool, and when an equal value is already
present the index of its first occurrence is used, the pool is unchanged,
and `push_to_stack` succeeds without growing the pool. -/
theorem C8_constant_pool_dedup {C : Type} [DecidableEq C] (cs : List C) (v : C) :
    constIndex (constIndex cs v).2 v = constIndex cs v ∧
    (v ∈ cs →
      (constIndex cs v).2 = cs ∧
      cs.get? (constIndex cs v).1 = some v ∧
      (∀ j, j < (constIndex cs v).1 → cs.get? j ≠ some v) ∧
      (∀ st : Compiler C, st.program.consts = cs → cs.length ≤ 2 ^ 24 - 1 →
        ∃ st2, push_to_stack st v = some st2 ∧ st2.program.consts = cs)) := by
  cases hpos : position (fun i => i == v) cs with
  | none =>
    have hAll : ∀ x ∈ cs, (x == v) = false := (position_eq_none_iff _ _).mp hpos
    have hv : v ∉ cs := by
      intro hmem
      have := hAll v hmem
      simp at this
    have hCI : constIndex cs v = (cs.length, cs ++ [v]) := by
      simp [constIndex, hpos]
    refine ⟨?_, fun hmem => absurd hmem hv⟩
    rw [hCI]
    have hpos2 : position (fun i => i == v) (cs ++ [v]) = some cs.length :=
      position_append_last _ _ _ hAll (by simp)
    simp [constIndex, hpos2]
  | some i =>
    have hCI : constIndex cs v = (i, cs) := by simp [constIndex, hpos]
    obtain ⟨⟨x, hx, hpx⟩, hmin⟩ := position_eq_some_spec _ cs i hpos
    have hxv : x = v := by simpa using hpx
    rw [hxv] at hx
    constructor
    · rw [hCI]
      exact hCI
    · intro hmem
      refine ⟨by rw [hCI], by rw [hCI]; exact hx, ?_, ?_⟩
      · intro j hj hy
        rw [hCI] at hj
        have := hmin j hj v hy
        simp at this
      · intro st hst hlen
        have hi_lt : i < cs.length := by
          by_contra hge
          have hnone : cs.get? i = Option.none := List.get?_eq_none.mpr (by omega)
          rw [hnone] at hx
          exact Option.noConfusion hx
        have h24 : ¬ ((constIndex st.program.consts v).1 > 2 ^ 24 - 1) := by
          rw [hst, hCI]
          omega
        have hstep : push_to_stack st v =
            some (add_op_args
              { st with program :=
                { st.program with consts := (constIndex st.program.consts v).2 } }
              .LDL (((constIndex st.program.consts v).1 >>> 16) % 256)
              (((constIndex st.program.consts v).1 >>> 8) % 256)
              ((constIndex st.program.consts v).1 % 256)) := by
          simp only [push_to_stack, if_neg h24]
        refine ⟨_, hstep, ?_⟩
        show (constIndex st.program.consts v).2 = cs
        rw [hst, hCI]

/-- Witness for C8 at pool [5, 7] and value 7: the pool is unchanged and
the existing index is found. -/
theorem C8_witness :
    (constIndex [5, 7] (7 : ℕ)).2 = [5, 7] ∧
    [5, 7].get? (constIndex [5, 7] (7 : ℕ)).1 = some 7 :=
  ⟨((C8_constant_pool_dedup [5, 7] 7).2 (by decide)).1,
   ((C8_constant_pool_dedup [5, 7] 7).2 (by decide)).2.1⟩

/-- Claim C9: when the deduplicated pool index is below 98 and no explicit
target register is requested, `push_to` emits no instruction at all and
yields the pseudo-register `index + 17`, which lies in 17..114. -/
theorem C9_pseudo_register_fast_path {C : Type} [DecidableEq C] (st : Compiler C) (v : C)
    (h : (constIndex st.program.consts v).1 < 98) :
    push_to st v Option.none =
      some ((constIndex st.program.consts v).1 + 17,
        { st with program := { st.program with consts := (constIndex st.program.consts v).2 } }) ∧
    ({ st with program := { st.program with consts := (constIndex st.program.consts v).2 } }
      : Compiler C).program.ops = st.program.ops ∧
    17 ≤ (constIndex st.program.consts v).1 + 17 ∧
    (constIndex st.program.consts v).1 + 17 ≤ 114 := by
  have h24 : ¬ ((constIndex st.program.consts v).1 > 2 ^ 24 - 1) := by omega
  have h16 : ¬ ((constIndex st.program.consts v).1 > 2 ^ 16 - 1) := by omega
  refine ⟨?_, rfl, by omega, by omega⟩
  simp only [push_to, if_neg h24, if_neg h16, if_pos h]

/-- Witness for C9: the first constant of a fresh compiler gets pool index
0 and pseudo-register 17, with no instruction emitted. -/
theorem C9_witness :
    push_to (Compiler.new ℕ) 5 Option.none =
      some (17, { Compiler.new ℕ with program :=
        { (Compiler.new ℕ).program with consts := [5] } }) := by
  have h := C9_pseudo_register_fast_path (Compiler.new ℕ) 5 (by decide)
  exact h.1

/-- Claim C10: indexing any non-List value, with any key, returns no result
(`None`) — no panic and no error value. -/
theorem C10_index_on_non_list_is_none (v k : Value) (h : v.tag ≠ .list) :
    v.index k = Option.none := by
  cases v
  case list l => exact absurd rfl h
  all_goals rfl

/-- Witness for C10 at an Int receiver and a String key. -/
theorem C10_witness : Value.index (.int 0) (.str ("a")) = Option.none :=
  C10_index_on_non_list_is_none (.int 0) (.str ("a")) (by decide)

end Burlap
